import Mathlib

/-!
Verification of the ICD-10 code mapping script (`src/backend/icd10_mapper.py`).

The development shallowly embeds the pure logic of the script:

* `pySplitWs`, `pyStrip`, `parseLine`, `buildCatalog`, `chunkText`, `setupChunks`
  model the catalog preprocessing in `setup_icd10_data` (lines 20-53); the split
  is Python's `str.split(None, 4)` (runs of whitespace, at most 4 splits, the
  remainder kept whole as the last token).
* `create_embedding_index` models the index construction (lines 55-75); the
  sentence embedder is a function argument (an external capability) and the
  content of the chunks file an `Option` (its absence is `FileNotFoundError`).
* `extractOne`, `computeMatch`, `processOne`, `loopBody`, `map_diagnoses`
  model the hybrid matcher (lines 77-158).  The fuzzy scorer
  (`rapidfuzz.fuzz.token_sort_ratio`, a similarity in 0..100) and the composite
  of `SentenceTransformer.encode` with the faiss k=3 nearest-neighbour search
  (a list of (position, distance) rows) are function arguments; exceptions
  they or out-of-range list accesses may raise are modelled with
  `Except String`.  Scores and distances are rationals.
* `mainModel` models `main` (lines 179-202): the exit status and the printed
  report (`total_processed` and the result list).

Numeric rendering inside justification strings abstracts Python float
formatting; no theorem depends on the rendered digits.
-/

/-! ## Catalog parsing (`setup_icd10_data`, lines 29-42) -/

/-- Whitespace characters recognised by Python's `str.split()` / `str.strip()`
(the ASCII ones; catalog lines are ASCII). -/
def isPyWs (c : Char) : Bool :=
  c == ' ' || c == '\t' || c == '\n' || c == '\r' || c == '\x0b' || c == '\x0c'

def notPyWs (c : Char) : Bool := !(isPyWs c)

def pyDropWs (s : List Char) : List Char := s.dropWhile isPyWs

/-- Python `str.strip()`: remove leading and trailing whitespace. -/
def pyStrip (s : List Char) : List Char :=
  pyDropWs (List.reverse (pyDropWs (List.reverse s)))

/-- Python `str.split(None, maxsplit)`: skip leading whitespace; while the
string is nonempty and splits remain, cut the maximal non-whitespace token and
continue after the following whitespace run; once `maxsplit` splits are done
the rest of the string (leading whitespace removed) is the final token. -/
def pySplitWs : Nat → List Char → List (List Char)
  | 0, s =>
    match pyDropWs s with
    | [] => []
    | c :: cs => [c :: cs]
  | m + 1, s =>
    match pyDropWs s with
    | [] => []
    | c :: cs =>
      (c :: cs).takeWhile notPyWs :: pySplitWs m ((c :: cs).dropWhile notPyWs)

structure CodeEntry where
  code : List Char
  short_description : List Char
  long_description : List Char
deriving DecidableEq

/-- One iteration of the parsing loop (lines 30-38): strip the line, split
into at most 5 tokens, keep the line only when there are exactly 5; tokens 1
and 3 are discarded, token 2 is the code, token 4 the short description and
token 5 the (stripped) long description. -/
def parseLine (line : List Char) : Option CodeEntry :=
  match pySplitWs 4 (pyStrip line) with
  | [_, code, _, sd, ld] =>
    some { code := code, short_description := pyStrip sd, long_description := pyStrip ld }
  | _ => none

/-- The `entries` list built by lines 29-38 (spec: `CatalogBuilder.build`). -/
def buildCatalog (rawLines : List (List Char)) : List CodeEntry :=
  rawLines.filterMap parseLine

/-- The embedding input derived from one entry (line 40). -/
def chunkText (e : CodeEntry) : List Char :=
  "ICD Code: ".data ++ e.code ++ ". Description: ".data ++ e.long_description

/-- The `chunks` list of line 40. -/
def setupChunks (entries : List CodeEntry) : List (List Char) :=
  entries.map chunkText

/-! ## Index construction (`create_embedding_index`, lines 55-75) -/

inductive PyError
  | indexError
  | emptyCatalogError
deriving DecidableEq

inductive BuildOutcome
  | built (vectors : List (List ℚ))
  | fileNotFound
  | raised (e : PyError)
deriving DecidableEq

/-- `create_embedding_index` (lines 55-75): a missing chunks file is reported
and the function returns `False` (`fileNotFound` here); otherwise all chunks
are encoded in one batch and `embeddings[0].shape[0]` is read to size the flat
L2 index, so an empty embedding array raises an uncaught `IndexError`.  On
success the index holds exactly the embedding vectors, in order.
`emptyCatalogError` exists only to state the spec's claimed outcome; no branch
produces it. -/
def create_embedding_index (embedder : List (List Char) → List (List ℚ))
    (chunksFile : Option (List (List Char))) : BuildOutcome :=
  match chunksFile with
  | none => BuildOutcome.fileNotFound
  | some chunks =>
    match embedder chunks with
    | [] => BuildOutcome.raised PyError.indexError
    | v :: vs => BuildOutcome.built (v :: vs)

/-! ## The hybrid matcher (`map_diagnoses`, lines 77-158) -/

/-- The three JSON assets loaded at lines 89-94. -/
structure Assets where
  icd_chunks : List String
  icd_codes : List String
  icd_descs : List String

structure MatchResult where
  original_diagnosis : String
  matched_icd_code : Option String
  matched_description : Option String
  confidence_level : String
  justification : String
  alternative_codes : List (String × ℚ)
deriving DecidableEq

/-- Exception propagation: evaluate `x`; a raised exception skips `f`. -/
def bindE {α β : Type} (x : Except String α) (f : α → Except String β) :
    Except String β :=
  match x with
  | Except.error e => Except.error e
  | Except.ok a => f a

/-- Python list indexing `l[i]`: raises `IndexError` when out of range. -/
def listGetE {α : Type} (l : List α) (i : Nat) : Except String α :=
  match l.get? i with
  | some a => Except.ok a
  | none => Except.error "IndexError: list index out of range"

/-- Earliest maximum-scoring choice together with its score and position
(the selection behaviour of `rapidfuzz.process.extractOne`: on ties the
first occurrence is kept). -/
def argmaxL (f : String → ℚ) : List String → Option (String × ℚ × Nat)
  | [] => none
  | c :: cs =>
    match argmaxL f cs with
    | none => some (c, f c, 0)
    | some (m, sc, j) => if sc ≤ f c then some (c, f c, 0) else some (m, sc, j + 1)

/-- `rapidfuzz.process.extractOne(query, choices, scorer, score_cutoff)`
(lines 115-121): the maximum-scoring choice, returned together with its score
and index, or `None` when the best score is below the cutoff.  The scorer is
an external capability passed as a function. -/
def extractOne (score : String → String → ℚ) (query : String)
    (choices : List String) (cutoff : ℚ) : Option (String × ℚ × Nat) :=
  match argmaxL (score query) choices with
  | none => none
  | some (m, sc, j) => if cutoff ≤ sc then some (m, sc, j) else none

/-- The per-branch variables `code / icd_descs[idx] / confidence /
justification / alternatives` feeding the single result-record construction
at lines 140-147. -/
structure Payload where
  code : String
  desc : String
  confidence : String
  justification : String
  alternatives : List (String × ℚ)
deriving DecidableEq

/-- Keyword branch (lines 123-128): `code = icd_codes[idx]`, confidence from
the score, no alternatives; `icd_descs[idx]` is read again at line 143. -/
def keywordBranch (A : Assets) (sc : ℚ) (idx : Nat) : Except String Payload :=
  bindE (listGetE A.icd_codes idx) fun code =>
  bindE (listGetE A.icd_descs idx) fun desc =>
  let conf := if (95 : ℚ) ≤ sc then "High" else "Medium"
  Except.ok {
    code := code, desc := desc, confidence := conf,
    justification := "Keyword match with score " ++ toString sc ++
      "/100. Confidence: " ++ conf ++ ". Found similar phrase in ICD description.",
    alternatives := [] }

/-- The semantic-distance confidence cutoff `0.8` of line 136, written as
the raw rational 4/5 so that concrete inputs evaluate by kernel reduction;
`distCutoff_eq` below identifies it with the literal `0.8`. -/
def distCutoff : ℚ := ⟨4, 5, by decide, by decide⟩

/-- One element of the `alt` comprehension at line 134:
`(icd_codes[I[0][j]], icd_descs[I[0][j]], float(D[0][j]))`. -/
def altEntry (A : Assets) (nbrs : List (Nat × ℚ)) (j : Nat) :
    Except String (String × String × ℚ) :=
  bindE (listGetE nbrs j) fun p =>
  bindE (listGetE A.icd_codes p.1) fun c =>
  bindE (listGetE A.icd_descs p.1) fun dsc =>
  Except.ok (c, dsc, p.2)

/-- Semantic branch (lines 130-138): `sem` is the composite of
`embedder.encode` and `index.search(..., k=3)`, returning the neighbour rows
`(I[0][j], D[0][j])`; `idx = I[0][0]`, then `alt` for ranks 0..2, then
`code = icd_codes[idx]`, confidence from the nearest distance, alternatives
from ranks 1 and 2; `icd_descs[idx]` is read again at line 143. -/
def semanticBranch (sem : String → Except String (List (Nat × ℚ)))
    (A : Assets) (diag : String) : Except String Payload :=
  bindE (sem diag) fun nbrs =>
  bindE (listGetE nbrs 0) fun p0 =>
  bindE (altEntry A nbrs 0) fun _a0 =>
  bindE (altEntry A nbrs 1) fun a1 =>
  bindE (altEntry A nbrs 2) fun a2 =>
  bindE (listGetE A.icd_codes p0.1) fun code =>
  bindE (listGetE A.icd_descs p0.1) fun desc =>
  let conf := if distCutoff < p0.2 then "Low" else "Medium"
  Except.ok {
    code := code, desc := desc, confidence := conf,
    justification := "Semantic match using Sentence-BERT. Distance: " ++
      toString p0.2 ++ ". Confidence: " ++ conf ++
      ". No direct keyword match found above threshold.",
    alternatives := [(a1.1, a1.2.2), (a2.1, a2.2.2)] }

/-- Body of the `try` block at lines 113-147 up to the result record's
branch-dependent fields: keyword match first, semantic search only when the
keyword stage returned `None`. -/
def computeMatch (score : String → String → ℚ)
    (sem : String → Except String (List (Nat × ℚ)))
    (A : Assets) (diag : String) : Except String Payload :=
  match extractOne score diag A.icd_descs 85 with
  | some (_, sc, idx) => keywordBranch A sc idx
  | none => semanticBranch sem A diag

/-- Successful construction of one result record (lines 140-147), or the
exception escaping the `try` body. -/
def processOne (score : String → String → ℚ)
    (sem : String → Except String (List (Nat × ℚ)))
    (A : Assets) (diag : String) : Except String MatchResult :=
  match computeMatch score sem A diag with
  | Except.ok p =>
    Except.ok {
      original_diagnosis := diag, matched_icd_code := some p.code,
      matched_description := some p.desc, confidence_level := p.confidence,
      justification := p.justification, alternative_codes := p.alternatives }
  | Except.error e => Except.error e

/-- One iteration of the per-diagnosis loop (lines 112-156): the `except`
clause converts any exception into an Error record (lines 148-156). -/
def loopBody (score : String → String → ℚ)
    (sem : String → Except String (List (Nat × ℚ)))
    (A : Assets) (diag : String) : MatchResult :=
  match processOne score sem A diag with
  | Except.ok r => r
  | Except.error e =>
    { original_diagnosis := diag, matched_icd_code := none,
      matched_description := none, confidence_level := "Error",
      justification := "Error processing diagnosis: " ++ e,
      alternative_codes := [] }

/-- `diagnoses_input`: the function accepts a bare string or a list. -/
inductive DiagInput
  | single (s : String)
  | batch (l : List String)

/-- Lines 104-108: a bare string becomes a one-element list. -/
def normalizeInput : DiagInput → List String
  | DiagInput.single s => [s]
  | DiagInput.batch l => l

/-- `map_diagnoses` (lines 77-158): when loading any asset or the embedder
raises (lines 88-102) the function returns `[]`; otherwise each diagnosis is
processed in order. -/
def map_diagnoses (load : Option Assets) (score : String → String → ℚ)
    (sem : String → Except String (List (Nat × ℚ)))
    (input : DiagInput) : List MatchResult :=
  match load with
  | none => []
  | some A => (normalizeInput input).map (loopBody score sem A)

/-! ## `main` (lines 179-202) -/

structure BatchReport where
  total_processed : Nat
  results : List MatchResult
deriving DecidableEq

structure MainOutcome where
  exitCode : Nat
  report : Option BatchReport
deriving DecidableEq

/-- `main`: exit 1 when no diagnosis argument is given or initialization
fails; otherwise print `{total_processed: len(diagnoses), results: ...}` and
exit 0 (the script falls off the end of `main`, so the status is zero even
when `map_diagnoses` returned `[]`).  `args` is `sys.argv[1:]`. -/
def mainModel (initOk : Bool) (load : Option Assets)
    (score : String → String → ℚ)
    (sem : String → Except String (List (Nat × ℚ)))
    (args : List String) : MainOutcome :=
  if args = [] then { exitCode := 1, report := none }
  else
    match initOk with
    | false => { exitCode := 1, report := none }
    | true =>
      { exitCode := 0,
        report := some { total_processed := args.length,
                         results := map_diagnoses load score sem (DiagInput.batch args) } }

/-! ## Concrete test fixtures used by witnesses -/

/-- A deterministic stand-in lexical scorer. -/
def scoreW : String → String → ℚ := fun q d =>
  if q = "flu" && d = "flu desc" then 90
  else if q = "exact" && d = "abc" then 100
  else 10

/-- A deterministic stand-in encode-and-search capability: raises on
`"boom"`, otherwise returns three neighbour rows with ascending distances. -/
def semW : String → Except String (List (Nat × ℚ)) := fun d =>
  if d = "boom" then Except.error "encode failed"
  else Except.ok [(0, 1), (1, 2), (0, 3)]

def AW : Assets :=
  { icd_chunks := [], icd_codes := ["A00", "B00"], icd_descs := ["abc", "flu desc"] }

def rW1 : MatchResult := loopBody scoreW semW AW "flu"

def rW2 : MatchResult := loopBody scoreW semW AW "zzz"

/-! ## Helper lemmas -/

instance {α β : Type} [DecidableEq α] [DecidableEq β] : DecidableEq (Except α β) :=
  fun x y =>
    match x, y with
    | Except.ok a, Except.ok b =>
      if h : a = b then isTrue (by rw [h]) else isFalse (by intro hc; cases hc; exact h rfl)
    | Except.error a, Except.error b =>
      if h : a = b then isTrue (by rw [h]) else isFalse (by intro hc; cases hc; exact h rfl)
    | Except.ok _, Except.error _ => isFalse (by intro hc; cases hc)
    | Except.error _, Except.ok _ => isFalse (by intro hc; cases hc)

theorem argmaxL_eq_none {f : String → ℚ} {l : List String} :
    argmaxL f l = none ↔ l = [] := by
  cases l with
  | nil => simp [argmaxL]
  | cons c cs =>
    simp only [argmaxL]
    cases h : argmaxL f cs with
    | none => simp
    | some t =>
      obtain ⟨m, sc, j⟩ := t
      by_cases hle : sc ≤ f c <;> simp [hle]

theorem argmaxL_spec {f : String → ℚ} {l : List String} {m : String} {sc : ℚ} {j : Nat}
    (h : argmaxL f l = some (m, sc, j)) :
    f m = sc ∧ l.get? j = some m ∧ ∀ x ∈ l, f x ≤ sc := by
  induction l generalizing m sc j with
  | nil => simp [argmaxL] at h
  | cons c cs ih =>
    rw [argmaxL] at h
    cases hcs : argmaxL f cs with
    | none =>
      rw [hcs] at h
      obtain ⟨rfl, rfl, rfl⟩ : c = m ∧ f c = sc ∧ 0 = j := by
        injection h with h'; injection h' with h1 h2; injection h2 with h3 h4
        exact ⟨h1, h3, h4⟩
      have hnil : cs = [] := argmaxL_eq_none.mp hcs
      subst hnil
      simp
    | some t =>
      obtain ⟨m', sc', j'⟩ := t
      rw [hcs] at h
      dsimp only at h
      obtain ⟨hf', hg', hmax'⟩ := ih hcs
      by_cases hle : sc' ≤ f c
      · rw [if_pos hle] at h
        obtain ⟨rfl, rfl, rfl⟩ : c = m ∧ f c = sc ∧ 0 = j := by
          injection h with h'; injection h' with h1 h2; injection h2 with h3 h4
          exact ⟨h1, h3, h4⟩
        refine ⟨rfl, rfl, ?_⟩
        intro x hx
        rcases List.mem_cons.mp hx with rfl | hx'
        · exact le_refl _
        · exact (hmax' x hx').trans hle
      · rw [if_neg hle] at h
        obtain ⟨rfl, rfl, rfl⟩ : m' = m ∧ sc' = sc ∧ j' + 1 = j := by
          injection h with h'; injection h' with h1 h2; injection h2 with h3 h4
          exact ⟨h1, h3, h4⟩
        refine ⟨hf', by simpa using hg', ?_⟩
        intro x hx
        rcases List.mem_cons.mp hx with rfl | hx'
        · exact le_of_lt (lt_of_not_le hle)
        · exact hmax' x hx'

theorem extractOne_isSome_iff {score : String → String → ℚ} {q : String}
    {choices : List String} {cutoff : ℚ} :
    (extractOne score q choices cutoff).isSome ↔
      ∃ d ∈ choices, cutoff ≤ score q d := by
  unfold extractOne
  cases h : argmaxL (score q) choices with
  | none =>
    have : choices = [] := argmaxL_eq_none.mp h
    subst this
    simp
  | some t =>
    obtain ⟨m, sc, j⟩ := t
    obtain ⟨hf, hg, hmax⟩ := argmaxL_spec h
    dsimp only
    by_cases hc : cutoff ≤ sc
    · rw [if_pos hc]
      constructor
      · intro _
        exact ⟨m, List.get?_mem hg, hf ▸ hc⟩
      · intro _
        rfl
    · rw [if_neg hc]
      constructor
      · intro hs
        simp at hs
      · rintro ⟨d, hd, hcd⟩
        exact absurd (hcd.trans (hmax d hd)) hc

theorem extractOne_some_spec {score : String → String → ℚ} {q : String}
    {choices : List String} {cutoff : ℚ} {m : String} {sc : ℚ} {j : Nat}
    (h : extractOne score q choices cutoff = some (m, sc, j)) :
    cutoff ≤ sc ∧ score q m = sc ∧ choices.get? j = some m ∧
      ∀ d ∈ choices, score q d ≤ sc := by
  unfold extractOne at h
  cases ha : argmaxL (score q) choices with
  | none => rw [ha] at h; cases h
  | some t =>
    obtain ⟨m', sc', j'⟩ := t
    rw [ha] at h
    dsimp only at h
    by_cases hc : cutoff ≤ sc'
    · rw [if_pos hc] at h
      obtain ⟨rfl, rfl, rfl⟩ : m' = m ∧ sc' = sc ∧ j' = j := by
        injection h with h'; injection h' with h1 h2; injection h2 with h3 h4
        exact ⟨h1, h3, h4⟩
      obtain ⟨hf, hg, hmax⟩ := argmaxL_spec ha
      exact ⟨hc, hf, hg, hmax⟩
    · rw [if_neg hc] at h; cases h

theorem processOne_orig {score : String → String → ℚ}
    {sem : String → Except String (List (Nat × ℚ))} {A : Assets} {diag : String}
    {r : MatchResult} (h : processOne score sem A diag = Except.ok r) :
    r.original_diagnosis = diag := by
  unfold processOne at h
  cases hc : computeMatch score sem A diag with
  | ok p => rw [hc] at h; injection h with h'; rw [← h']
  | error e => rw [hc] at h; cases h

theorem loopBody_orig (score : String → String → ℚ)
    (sem : String → Except String (List (Nat × ℚ))) (A : Assets) (diag : String) :
    (loopBody score sem A diag).original_diagnosis = diag := by
  unfold loopBody
  cases h : processOne score sem A diag with
  | ok r => exact processOne_orig h
  | error e => rfl

theorem bindE_ok {α β : Type} (a : α) (f : α → Except String β) :
    bindE (Except.ok a) f = f a := rfl

theorem bindE_err {α β : Type} (e : String) (f : α → Except String β) :
    bindE (Except.error e) f = Except.error e := rfl

theorem listGetE_eq_ok {α : Type} {l : List α} {i : Nat} {a : α}
    (h : l.get? i = some a) : listGetE l i = Except.ok a := by
  unfold listGetE; rw [h]

theorem listGetE_eq_err {α : Type} {l : List α} {i : Nat}
    (h : l.get? i = none) :
    listGetE l i = Except.error "IndexError: list index out of range" := by
  unfold listGetE; rw [h]

theorem distCutoff_eq : distCutoff = (0.8 : ℚ) := by
  rw [distCutoff, Rat.mk'_eq_divInt]
  norm_num [Rat.divInt_eq_div]

theorem processOne_keyword_cases {score : String → String → ℚ}
    {sem : String → Except String (List (Nat × ℚ))} {A : Assets} {diag : String}
    {m : String} {sc : ℚ} {idx : Nat} {r : MatchResult}
    (hx : extractOne score diag A.icd_descs 85 = some (m, sc, idx))
    (hr : processOne score sem A diag = Except.ok r) :
    ∃ c0 dsc0, A.icd_codes.get? idx = some c0 ∧ A.icd_descs.get? idx = some dsc0 ∧
      r = { original_diagnosis := diag, matched_icd_code := some c0,
            matched_description := some dsc0,
            confidence_level := if (95 : ℚ) ≤ sc then "High" else "Medium",
            justification := "Keyword match with score " ++ toString sc ++
              "/100. Confidence: " ++ (if (95 : ℚ) ≤ sc then "High" else "Medium") ++
              ". Found similar phrase in ICD description.",
            alternative_codes := [] } := by
  unfold processOne computeMatch keywordBranch at hr
  rw [hx] at hr
  dsimp only at hr
  cases hc0 : A.icd_codes.get? idx with
  | none =>
    rw [listGetE_eq_err hc0] at hr
    rw [bindE_err] at hr
    exact Except.noConfusion hr
  | some c0 =>
    rw [listGetE_eq_ok hc0] at hr
    simp only [bindE_ok] at hr
    cases hd0 : A.icd_descs.get? idx with
    | none =>
      rw [listGetE_eq_err hd0] at hr
      rw [bindE_err] at hr
      exact Except.noConfusion hr
    | some dsc0 =>
      rw [listGetE_eq_ok hd0] at hr
      simp only [bindE_ok] at hr
      refine ⟨c0, dsc0, rfl, rfl, ?_⟩
      injection hr with h'
      exact h'.symm

theorem processOne_semantic_cases {score : String → String → ℚ}
    {sem : String → Except String (List (Nat × ℚ))} {A : Assets} {diag : String}
    {i0 i1 i2 : Nat} {d0 d1 d2 : ℚ} {rest : List (Nat × ℚ)} {r : MatchResult}
    (hk : extractOne score diag A.icd_descs 85 = none)
    (hs : sem diag = Except.ok ((i0, d0) :: (i1, d1) :: (i2, d2) :: rest))
    (hr : processOne score sem A diag = Except.ok r) :
    ∃ c0 dsc0 c1 dsc1 c2 dsc2,
      A.icd_codes.get? i0 = some c0 ∧ A.icd_descs.get? i0 = some dsc0 ∧
      A.icd_codes.get? i1 = some c1 ∧ A.icd_descs.get? i1 = some dsc1 ∧
      A.icd_codes.get? i2 = some c2 ∧ A.icd_descs.get? i2 = some dsc2 ∧
      r = { original_diagnosis := diag, matched_icd_code := some c0,
            matched_description := some dsc0,
            confidence_level := if distCutoff < d0 then "Low" else "Medium",
            justification := "Semantic match using Sentence-BERT. Distance: " ++
              toString d0 ++ ". Confidence: " ++
              (if distCutoff < d0 then "Low" else "Medium") ++
              ". No direct keyword match found above threshold.",
            alternative_codes := [(c1, d1), (c2, d2)] } := by
  have g0 : listGetE ((i0, d0) :: (i1, d1) :: (i2, d2) :: rest) 0 =
      Except.ok (i0, d0) := rfl
  have g1 : listGetE ((i0, d0) :: (i1, d1) :: (i2, d2) :: rest) 1 =
      Except.ok (i1, d1) := rfl
  have g2 : listGetE ((i0, d0) :: (i1, d1) :: (i2, d2) :: rest) 2 =
      Except.ok (i2, d2) := rfl
  unfold processOne computeMatch semanticBranch altEntry at hr
  rw [hk] at hr
  dsimp only at hr
  rw [hs] at hr
  simp only [bindE_ok, g0, g1, g2] at hr
  cases hc0 : A.icd_codes.get? i0 with
  | none =>
    simp only [listGetE_eq_err hc0, bindE_err] at hr
    exact Except.noConfusion hr
  | some c0 =>
  simp only [listGetE_eq_ok hc0, bindE_ok] at hr
  cases hd0 : A.icd_descs.get? i0 with
  | none =>
    simp only [listGetE_eq_err hd0, bindE_err] at hr
    exact Except.noConfusion hr
  | some dsc0 =>
  simp only [listGetE_eq_ok hd0, bindE_ok] at hr
  cases hc1 : A.icd_codes.get? i1 with
  | none =>
    simp only [listGetE_eq_err hc1, bindE_err] at hr
    exact Except.noConfusion hr
  | some c1 =>
  simp only [listGetE_eq_ok hc1, bindE_ok] at hr
  cases hd1 : A.icd_descs.get? i1 with
  | none =>
    simp only [listGetE_eq_err hd1, bindE_err] at hr
    exact Except.noConfusion hr
  | some dsc1 =>
  simp only [listGetE_eq_ok hd1, bindE_ok] at hr
  cases hc2 : A.icd_codes.get? i2 with
  | none =>
    simp only [listGetE_eq_err hc2, bindE_err] at hr
    exact Except.noConfusion hr
  | some c2 =>
  simp only [listGetE_eq_ok hc2, bindE_ok] at hr
  cases hd2 : A.icd_descs.get? i2 with
  | none =>
    simp only [listGetE_eq_err hd2, bindE_err] at hr
    exact Except.noConfusion hr
  | some dsc2 =>
  simp only [listGetE_eq_ok hd2, bindE_ok] at hr
  refine ⟨c0, dsc0, c1, dsc1, c2, dsc2, rfl, rfl, rfl, rfl, rfl, rfl, ?_⟩
  injection hr with h'
  exact h'.symm

/-! ## The claims -/

/-- C1: for every diagnosis, the lexical stage selects the maximum-scoring
catalog entry under the (token-order-insensitive) scorer and accepts it
exactly when the score is at least 85; an accepted match yields confidence
High exactly when the score is at least 95 and Medium otherwise, with no
alternatives; and when the lexical stage accepts, the semantic capability is
never consulted (the result is unchanged under any replacement of it). -/
theorem C1_lexical_stage (score : String → String → ℚ)
    (sem : String → Except String (List (Nat × ℚ))) (A : Assets) (diag : String) :
    ((extractOne score diag A.icd_descs 85).isSome ↔
       ∃ d ∈ A.icd_descs, (85 : ℚ) ≤ score diag d) ∧
    (∀ m sc idx, extractOne score diag A.icd_descs 85 = some (m, sc, idx) →
       (85 : ℚ) ≤ sc ∧ score diag m = sc ∧ A.icd_descs.get? idx = some m ∧
       (∀ d ∈ A.icd_descs, score diag d ≤ sc) ∧
       (∀ r, processOne score sem A diag = Except.ok r →
          r.confidence_level = (if (95 : ℚ) ≤ sc then "High" else "Medium") ∧
          r.alternative_codes = []) ∧
       (∀ sem2, processOne score sem2 A diag = processOne score sem A diag)) := by
  constructor
  · exact extractOne_isSome_iff
  · intro m sc idx hx
    obtain ⟨hcut, hm, hg, hmax⟩ := extractOne_some_spec hx
    refine ⟨hcut, hm, hg, hmax, ?_, ?_⟩
    · intro r hr
      obtain ⟨c0, dsc0, _, _, hre⟩ := processOne_keyword_cases hx hr
      subst hre
      exact ⟨rfl, rfl⟩
    · intro sem2
      unfold processOne computeMatch
      rw [hx]

theorem C1_witness :
    rW1.confidence_level = (if (95 : ℚ) ≤ (90 : ℚ) then "High" else "Medium") ∧
    rW1.alternative_codes = [] :=
  (((C1_lexical_stage scoreW semW AW "flu").2 "flu desc" 90 1
    (by decide)).2.2.2.2.1) rW1 (by decide)

/-- C2: for a diagnosis that reaches the semantic stage (no lexical match at
the cutoff) and yields a result, the primary match is the rank-0 nearest
neighbour; the confidence is Low exactly when that nearest distance exceeds
0.8, Medium otherwise, and never High. -/
theorem C2_semantic_stage (score : String → String → ℚ)
    (sem : String → Except String (List (Nat × ℚ))) (A : Assets) (diag : String)
    (i0 i1 i2 : Nat) (d0 d1 d2 : ℚ) (rest : List (Nat × ℚ)) (r : MatchResult)
    (hk : extractOne score diag A.icd_descs 85 = none)
    (hs : sem diag = Except.ok ((i0, d0) :: (i1, d1) :: (i2, d2) :: rest))
    (hr : processOne score sem A diag = Except.ok r) :
    r.matched_icd_code = A.icd_codes.get? i0 ∧
    r.matched_description = A.icd_descs.get? i0 ∧
    (r.confidence_level = "Low" ↔ (0.8 : ℚ) < d0) ∧
    (d0 ≤ (0.8 : ℚ) → r.confidence_level = "Medium") ∧
    r.confidence_level ≠ "High" := by
  obtain ⟨c0, dsc0, c1, dsc1, c2, dsc2, hc0, hd0, hc1, hd1, hc2, hd2, hre⟩ :=
    processOne_semantic_cases hk hs hr
  subst hre
  refine ⟨by rw [hc0], by rw [hd0], ?_, ?_, ?_⟩
  · dsimp only
    rw [distCutoff_eq]
    by_cases hd : (0.8 : ℚ) < d0
    · rw [if_pos hd]
      exact iff_of_true rfl hd
    · rw [if_neg hd]
      constructor
      · intro hML
        exact absurd hML (by decide)
      · intro hcon
        exact absurd hcon hd
  · intro hle
    dsimp only
    rw [distCutoff_eq]
    rw [if_neg (not_lt.mpr hle)]
  · dsimp only
    rw [distCutoff_eq]
    by_cases hd : (0.8 : ℚ) < d0
    · rw [if_pos hd]
      decide
    · rw [if_neg hd]
      decide

theorem C2_witness :
    rW2.matched_icd_code = AW.icd_codes.get? 0 ∧
    rW2.matched_description = AW.icd_descs.get? 0 ∧
    (rW2.confidence_level = "Low" ↔ (0.8 : ℚ) < 1) ∧
    ((1 : ℚ) ≤ (0.8 : ℚ) → rW2.confidence_level = "Medium") ∧
    rW2.confidence_level ≠ "High" :=
  C2_semantic_stage scoreW semW AW "zzz" 0 1 0 1 2 3 [] rW2
    (by decide) (by decide) (by decide)

/-- C3: a successful lexical match carries no alternatives, and a successful
semantic match carries exactly the rank-1 and rank-2 neighbours, each with
its code and distance; when the search distances are ascending (the vector
index capability's contract) the two alternatives are in ascending-distance
order. -/
theorem C3_alternative_codes (score : String → String → ℚ)
    (sem : String → Except String (List (Nat × ℚ))) (A : Assets) (diag : String)
    (r : MatchResult) :
    ((extractOne score diag A.icd_descs 85).isSome →
       processOne score sem A diag = Except.ok r → r.alternative_codes = []) ∧
    (∀ i0 i1 i2 : Nat, ∀ d0 d1 d2 : ℚ, ∀ rest : List (Nat × ℚ),
       extractOne score diag A.icd_descs 85 = none →
       sem diag = Except.ok ((i0, d0) :: (i1, d1) :: (i2, d2) :: rest) →
       processOne score sem A diag = Except.ok r →
       ∀ c1 c2, A.icd_codes.get? i1 = some c1 → A.icd_codes.get? i2 = some c2 →
         r.alternative_codes = [(c1, d1), (c2, d2)] ∧
         (d1 ≤ d2 →
           List.Chain' (fun p q : String × ℚ => p.2 ≤ q.2) r.alternative_codes)) := by
  constructor
  · intro hsome hr
    obtain ⟨t, hx⟩ := Option.isSome_iff_exists.mp hsome
    obtain ⟨m, sc, idx⟩ := t
    obtain ⟨c0, dsc0, _, _, hre⟩ := processOne_keyword_cases hx hr
    subst hre
    rfl
  · intro i0 i1 i2 d0 d1 d2 rest hk hs hr c1 c2 hc1 hc2
    obtain ⟨c0', dsc0', c1', dsc1', c2', dsc2', _, _, hc1', _, hc2', _, hre⟩ :=
      processOne_semantic_cases hk hs hr
    have e1 : c1' = c1 := Option.some.inj (hc1'.symm.trans hc1)
    have e2 : c2' = c2 := Option.some.inj (hc2'.symm.trans hc2)
    subst hre
    subst e1
    subst e2
    refine ⟨rfl, ?_⟩
    intro h12
    exact List.chain'_cons.mpr ⟨h12, List.chain'_singleton _⟩

theorem C3_witness :
    rW1.alternative_codes = [] ∧
    rW2.alternative_codes = [("B00", 2), ("A00", 3)] ∧
    List.Chain' (fun p q : String × ℚ => p.2 ≤ q.2) rW2.alternative_codes := by
  have h1 := (C3_alternative_codes scoreW semW AW "flu" rW1).1 (by decide) (by decide)
  have h2 := (C3_alternative_codes scoreW semW AW "zzz" rW2).2 0 1 0 1 2 3 []
    (by decide) (by decide) (by decide) "B00" "A00" (by decide) (by decide)
  exact ⟨h1, h2.1, h2.2 (by decide)⟩

/-- C4: a per-item exception at position i yields, at that position, an
Error record with no matched code and a justification carrying the message;
every position's result is a function of its own diagnosis alone, so any
environment agreeing on the other diagnoses produces identical results at
every other position — the failure does not contaminate them. -/
theorem C4_per_item_isolation (score : String → String → ℚ)
    (sem : String → Except String (List (Nat × ℚ))) (A : Assets)
    (l : List String) (i : Nat) (d e : String)
    (hd : l.get? i = some d) (he : processOne score sem A d = Except.error e) :
    (map_diagnoses (some A) score sem (DiagInput.batch l)).get? i = some
      { original_diagnosis := d, matched_icd_code := none,
        matched_description := none, confidence_level := "Error",
        justification := "Error processing diagnosis: " ++ e,
        alternative_codes := [] } ∧
    (∀ j, (map_diagnoses (some A) score sem (DiagInput.batch l)).get? j =
        (l.get? j).map (loopBody score sem A)) ∧
    (∀ score2 sem2 A2,
       (∀ j dj, j ≠ i → l.get? j = some dj →
          loopBody score2 sem2 A2 dj = loopBody score sem A dj) →
       ∀ j, j ≠ i →
         (map_diagnoses (some A2) score2 sem2 (DiagInput.batch l)).get? j =
         (map_diagnoses (some A) score sem (DiagInput.batch l)).get? j) := by
  have hmap : ∀ (sc : String → String → ℚ)
      (se : String → Except String (List (Nat × ℚ))) (B : Assets) (j : Nat),
      (map_diagnoses (some B) sc se (DiagInput.batch l)).get? j =
        (l.get? j).map (loopBody sc se B) := by
    intro sc se B j
    unfold map_diagnoses normalizeInput
    exact List.get?_map (loopBody sc se B) l j
  refine ⟨?_, fun j => hmap score sem A j, ?_⟩
  · rw [hmap score sem A i, hd]
    dsimp only [Option.map]
    unfold loopBody
    rw [he]
  · intro score2 sem2 A2 hagree j hj
    rw [hmap score sem A j, hmap score2 sem2 A2 j]
    cases hlj : l.get? j with
    | none => rfl
    | some dj =>
      dsimp only [Option.map]
      rw [hagree j dj hj hlj]

theorem C4_witness :
    (map_diagnoses (some AW) scoreW semW
        (DiagInput.batch ["flu", "boom", "zzz"])).get? 1 = some
      { original_diagnosis := "boom", matched_icd_code := none,
        matched_description := none, confidence_level := "Error",
        justification := "Error processing diagnosis: " ++ "encode failed",
        alternative_codes := [] } :=
  (C4_per_item_isolation scoreW semW AW ["flu", "boom", "zzz"] 1 "boom"
    "encode failed" (by decide) (by decide)).1

/-- C5: results come back in input order — the result at position i carries
diagnoses[i] as its original_diagnosis and there is one result per input —
and `main` reports `total_processed` equal to the input length. -/
theorem C5_order_preservation (score : String → String → ℚ)
    (sem : String → Except String (List (Nat × ℚ))) (A : Assets)
    (args : List String) (i : Nat) :
    Option.map MatchResult.original_diagnosis
        ((map_diagnoses (some A) score sem (DiagInput.batch args)).get? i) =
      args.get? i ∧
    (map_diagnoses (some A) score sem (DiagInput.batch args)).length =
      args.length ∧
    (args ≠ [] →
      (mainModel true (some A) score sem args).exitCode = 0 ∧
      (mainModel true (some A) score sem args).report =
        some { total_processed := args.length,
               results := map_diagnoses (some A) score sem (DiagInput.batch args) }) := by
  refine ⟨?_, ?_, ?_⟩
  · unfold map_diagnoses normalizeInput
    rw [List.get?_map]
    cases h : args.get? i with
    | none => rfl
    | some d =>
      dsimp only [Option.map]
      rw [loopBody_orig]
  · unfold map_diagnoses normalizeInput
    exact List.length_map args _
  · intro hne
    unfold mainModel
    rw [if_neg hne]
    exact ⟨rfl, rfl⟩

theorem C5_witness :
    Option.map MatchResult.original_diagnosis
        ((map_diagnoses (some AW) scoreW semW
          (DiagInput.batch ["flu", "zzz"])).get? 0) =
      (["flu", "zzz"] : List String).get? 0 ∧
    (mainModel true (some AW) scoreW semW ["flu", "zzz"]).exitCode = 0 ∧
    (mainModel true (some AW) scoreW semW ["flu", "zzz"]).report =
      some { total_processed := (["flu", "zzz"] : List String).length,
             results := map_diagnoses (some AW) scoreW semW
               (DiagInput.batch ["flu", "zzz"]) } := by
  have h := C5_order_preservation scoreW semW AW ["flu", "zzz"] 0
  exact ⟨h.1, (h.2.2 (by decide)).1, (h.2.2 (by decide)).2⟩

/-- C6: a raw line contributes a catalog entry exactly when the stripped line
splits into exactly 5 whitespace-delimited tokens under a max-4 split (the
5th token being the rest of the line); the 2nd token becomes the code, the
4th the short description, the 5th (trimmed) the long description, the 1st
and 3rd are discarded; a line that does not split into 5 tokens is skipped —
the build is total and the line contributes no entry. -/
theorem C6_catalog_lines (line : List Char) (pre post : List (List Char)) :
    ((parseLine line).isSome ↔ (pySplitWs 4 (pyStrip line)).length = 5) ∧
    (∀ t1 code t3 sd ld, pySplitWs 4 (pyStrip line) = [t1, code, t3, sd, ld] →
       parseLine line = some { code := code, short_description := pyStrip sd,
                               long_description := pyStrip ld }) ∧
    (parseLine line = none →
       buildCatalog (pre ++ line :: post) = buildCatalog (pre ++ post)) ∧
    (∀ e, parseLine line = some e →
       buildCatalog (pre ++ line :: post) = buildCatalog pre ++ e :: buildCatalog post) := by
  refine ⟨?_, ?_, ?_, ?_⟩
  · unfold parseLine
    rcases h : pySplitWs 4 (pyStrip line) with
      _ | ⟨a, _ | ⟨b, _ | ⟨c, _ | ⟨d, _ | ⟨e, _ | ⟨f, rest⟩⟩⟩⟩⟩⟩ <;>
      simp
  · intro t1 code t3 sd ld h
    unfold parseLine
    rw [h]
  · intro h
    unfold buildCatalog
    rw [List.filterMap_append, List.filterMap_append]
    simp [List.filterMap_cons, h]
  · intro e h
    unfold buildCatalog
    rw [List.filterMap_append]
    simp [List.filterMap_cons, h]

theorem C6_witness :
    parseLine "1 A00 0 Chol Cholera asiatica".data = some
      { code := "A00".data, short_description := pyStrip "Chol".data,
        long_description := pyStrip "Cholera asiatica".data } ∧
    buildCatalog (["bad line".data] ++ "1 2 3".data :: ["1 A00 0 Chol Cholera".data]) =
      buildCatalog (["bad line".data] ++ ["1 A00 0 Chol Cholera".data]) := by
  constructor
  · exact (C6_catalog_lines "1 A00 0 Chol Cholera asiatica".data [] []).2.1
      "1".data "A00".data "0".data "Chol".data "Cholera asiatica".data (by decide)
  · exact (C6_catalog_lines "1 2 3".data ["bad line".data]
      ["1 A00 0 Chol Cholera".data]).2.2.1 (by decide)

/-- C7 (counterexample): the chunk generated for the entry parsed from
`"1 A00 0 Chol Cholera"` is `"ICD Code: A00. Description: Cholera"`, not the
claimed `"Code: A00. Description: Cholera"`. -/
theorem C7_counterexample :
    setupChunks (buildCatalog ["1 A00 0 Chol Cholera".data]) =
      ["ICD Code: A00. Description: Cholera".data] ∧
    setupChunks (buildCatalog ["1 A00 0 Chol Cholera".data]) ≠
      ["Code: A00. Description: Cholera".data] := by
  constructor
  · decide
  · decide

/-- C7 (amended): the chunk text fed to the embedder for each catalog entry
is exactly `"ICD Code: {code}. Description: {long_description}"`, generated
deterministically, position by position. -/
theorem C7_chunk_format (entries : List CodeEntry) (i : Nat) :
    (setupChunks entries).get? i =
      Option.map (fun e => "ICD Code: ".data ++ e.code ++
        ". Description: ".data ++ e.long_description) (entries.get? i) := by
  unfold setupChunks
  rw [List.get?_map]
  rfl

/-- C8 (counterexample): building the index over an empty chunk list fails
with an uncaught IndexError at `embeddings[0]`, not with an
EmptyCatalogError (no such error exists in the program). -/
theorem C8_counterexample :
    create_embedding_index (fun ts => ts.map (fun _ => [(0 : ℚ)])) (some []) =
      BuildOutcome.raised PyError.indexError ∧
    create_embedding_index (fun ts => ts.map (fun _ => [(0 : ℚ)])) (some []) ≠
      BuildOutcome.raised PyError.emptyCatalogError := by
  constructor
  · rfl
  · decide

/-- C8 (amended): for every embedder that returns one vector per input text,
building from an empty catalog raises IndexError (reading `embeddings[0]`). -/
theorem C8_empty_catalog (embedder : List (List Char) → List (List ℚ))
    (h : embedder [] = []) :
    create_embedding_index embedder (some []) =
      BuildOutcome.raised PyError.indexError := by
  unfold create_embedding_index
  dsimp only
  rw [h]

theorem C8_witness :
    create_embedding_index (fun ts => ts.map (fun _ => [(0 : ℚ)])) (some []) =
      BuildOutcome.raised PyError.indexError :=
  C8_empty_catalog (fun ts => ts.map (fun _ => [(0 : ℚ)])) rfl

/-- C9 (counterexample): the batch component `map_diagnoses` itself accepts
a bare diagnosis string and converts it into a one-element batch (lines
104-108) — the conversion is not left to the caller. -/
theorem C9_counterexample :
    normalizeInput (DiagInput.single "flu") = ["flu"] ∧
    map_diagnoses (some AW) scoreW semW (DiagInput.single "flu") = [rW1] ∧
    (map_diagnoses (some AW) scoreW semW (DiagInput.single "flu")).length = 1 := by
  refine ⟨rfl, rfl, rfl⟩

/-- C9 (amended): a bare string input is handled by the component exactly as
its one-element batch. -/
theorem C9_single_as_batch (load : Option Assets)
    (score : String → String → ℚ)
    (sem : String → Except String (List (Nat × ℚ))) (s : String) :
    map_diagnoses load score sem (DiagInput.single s) =
      map_diagnoses load score sem (DiagInput.batch [s]) := by
  cases load <;> rfl

/-- C10: when loading any persisted asset or the embedding model raises,
`map_diagnoses` returns the empty result list (no per-item Error results),
while `main` still reports `total_processed` as the full input length and
exits with status zero. -/
theorem C10_load_failure (score : String → String → ℚ)
    (sem : String → Except String (List (Nat × ℚ)))
    (args : List String) (h : args ≠ []) :
    map_diagnoses none score sem (DiagInput.batch args) = [] ∧
    mainModel true none score sem args =
      { exitCode := 0,
        report := some { total_processed := args.length, results := [] } } := by
  refine ⟨rfl, ?_⟩
  unfold mainModel
  rw [if_neg h]
  rfl

theorem C10_witness :
    map_diagnoses none scoreW semW (DiagInput.batch ["flu"]) = [] ∧
    mainModel true none scoreW semW ["flu"] =
      { exitCode := 0, report := some { total_processed := 1, results := [] } } :=
  C10_load_failure scoreW semW ["flu"] (by decide)
